import Mathlib

/-!
Verification development for the deterministic response-cache and
usage-accounting layer of the ag2 repository (spec.md §§1-8).  The
orchestrator (`OpenAIWrapper.create`), the cache backends (`Cache.disk`,
legacy disk cache) and the dual usage ledger are not present in the
source tree (only their tests in `test/oai/test_client.py` and the
`autogen/io/__init__.py` module are), so they are modelled here from the
specification.  The `autogen.io` import side effect is embedded from
`src/autogen/io/__init__.py`.
-/

namespace AG2

/-- Modelled from the spec (§3 Response, §6 external interfaces): token
usage carried by a response.  The concrete `openai` response classes are
missing from the source tree. -/
structure Usage where
  promptTokens : Nat
  completionTokens : Nat
deriving DecidableEq

/-- Modelled from the spec (§3 Response "tool-call payloads"): a nested
tool-call payload inside a response. -/
structure ToolCall where
  name : String
  arguments : String
deriving DecidableEq

/-- Modelled from the spec (§3 Response): the value returned to the
caller; equality-comparable, carrying a derived cost field; the concrete
response class is missing from the source tree. -/
structure Response where
  model : String
  content : String
  toolCalls : List ToolCall
  usage : Usage
  cost : ℚ
deriving DecidableEq

/-- Modelled from the spec (§4.2 "backend-specific serialized blobs"):
the serialized form a cache backend stores on disk. -/
inductive SVal where
  | str (s : String)
  | nat (n : Nat)
  | num (q : ℚ)
  | list (xs : List SVal)

/-- Modelled from the spec (§4.2): serialization of one tool call. -/
def serializeToolCall (t : ToolCall) : SVal :=
  .list [.str t.name, .str t.arguments]

/-- Modelled from the spec (§4.2): deserialization of one tool call. -/
def deserializeToolCall : SVal → Option ToolCall
  | .list [.str n, .str a] => some ⟨n, a⟩
  | _ => none

/-- Modelled from the spec (§4.2): deserialization of a list of tool
calls. -/
def deserializeToolCalls : List SVal → Option (List ToolCall)
  | [] => some []
  | v :: vs =>
    match deserializeToolCall v, deserializeToolCalls vs with
    | some t, some ts => some (t :: ts)
    | _, _ => none

/-- Modelled from the spec (§4.2): serialization of a full response,
nested structures (token usage, tool-call payloads, cost) included. -/
def serializeResponse (r : Response) : SVal :=
  .list [.str r.model, .str r.content, .list (r.toolCalls.map serializeToolCall),
         .nat r.usage.promptTokens, .nat r.usage.completionTokens, .num r.cost]

/-- Modelled from the spec (§4.2): deserialization of a full response. -/
def deserializeResponse : SVal → Option Response
  | .list [.str m, .str c, .list ts, .nat pt, .nat ct, .num q] =>
      (deserializeToolCalls ts).map (fun tcs => ⟨m, c, tcs, ⟨pt, ct⟩, q⟩)
  | _ => none

theorem deserializeToolCall_serializeToolCall (t : ToolCall) :
    deserializeToolCall (serializeToolCall t) = some t := rfl

theorem deserializeToolCalls_map_serialize (ts : List ToolCall) :
    deserializeToolCalls (ts.map serializeToolCall) = some ts := by
  induction ts with
  | nil => rfl
  | cons t ts ih =>
      simp [deserializeToolCalls, deserializeToolCall_serializeToolCall, ih]

/-- Serialization round-trip fidelity for responses. -/
theorem deserializeResponse_serializeResponse (r : Response) :
    deserializeResponse (serializeResponse r) = some r := by
  simp [serializeResponse, deserializeResponse, deserializeToolCalls_map_serialize]

/-- Modelled from the spec (§3 Request): an opaque parameter set given
as key-value parameters (model name, messages/prompt, sampling
parameters, tool specs), immutable once submitted.  Dict key order is
non-semantic. -/
structure Request where
  params : List (String × String)
deriving DecidableEq

/-- Ordering of request parameters by parameter name, used to
canonicalize before hashing (spec §4.1 "sorting keys"). -/
def paramLE (a b : String × String) : Prop := a.1 ≤ b.1

/-- Strict ordering of request parameters by parameter name. -/
def paramLT (a b : String × String) : Prop := a.1 < b.1

instance : DecidableRel paramLE := fun a b =>
  inferInstanceAs (Decidable (a.1 ≤ b.1))

instance : IsTotal (String × String) paramLE :=
  ⟨fun a b => le_total a.1 b.1⟩

instance : IsTrans (String × String) paramLE :=
  ⟨fun _ _ _ h h' => le_trans h h'⟩

instance : IsAntisymm (String × String) paramLT :=
  ⟨fun _ _ h h' => absurd h' (lt_asymm h)⟩

/-- Modelled from the spec (§4.1): parameters are canonicalized before
hashing by sorting keys. -/
def canonicalize (ps : List (String × String)) : List (String × String) :=
  List.insertionSort paramLE ps

/-- Modelled from the spec (§3 CacheKey): the derived cache key, a
stable content identifier over (normalized request parameters, seed).
Collisions being unacceptable, the identifier is modelled as the
canonical content itself. -/
abbrev CacheKey := List (String × String) × Nat

/-- Modelled from the spec (§4.1): `derive(request, seed) -> CacheKey`,
pure and deterministic, canonicalizing parameter order. -/
def derive (req : Request) (seed : Nat) : CacheKey :=
  (canonicalize req.params, seed)

theorem canonicalize_perm (ps : List (String × String)) :
    List.Perm (canonicalize ps) ps :=
  List.perm_insertionSort paramLE ps

theorem canonicalize_sorted (ps : List (String × String)) :
    List.Sorted paramLE (canonicalize ps) :=
  List.sorted_insertionSort paramLE ps

theorem sorted_strict_of_nodup_keys {l : List (String × String)}
    (hs : List.Sorted paramLE l) (hnd : (l.map Prod.fst).Nodup) :
    List.Sorted paramLT l := by
  have hne : l.Pairwise (fun a b : String × String => a.1 ≠ b.1) :=
    (List.pairwise_map).mp hnd
  exact (hs.and hne).imp (fun h => lt_of_le_of_ne h.1 h.2)

theorem canonicalize_eq_of_perm {ps qs : List (String × String)}
    (hperm : List.Perm ps qs) (hnd : (ps.map Prod.fst).Nodup) :
    canonicalize ps = canonicalize qs := by
  have hndq : (qs.map Prod.fst).Nodup := (hperm.map Prod.fst).nodup_iff.mp hnd
  have hp : List.Perm (canonicalize ps) (canonicalize qs) :=
    ((canonicalize_perm ps).trans hperm).trans (canonicalize_perm qs).symm
  refine @List.eq_of_perm_of_sorted (String × String) paramLT _ _ _ hp ?_ ?_
  · exact sorted_strict_of_nodup_keys (canonicalize_sorted ps)
      (((canonicalize_perm ps).map Prod.fst).nodup_iff.mpr hnd)
  · exact sorted_strict_of_nodup_keys (canonicalize_sorted qs)
      (((canonicalize_perm qs).map Prod.fst).nodup_iff.mpr hndq)

theorem perm_of_canonicalize_eq {ps qs : List (String × String)}
    (h : canonicalize ps = canonicalize qs) : List.Perm ps qs :=
  ((canonicalize_perm ps).symm.trans (h ▸ List.Perm.refl (canonicalize ps))).trans
    (canonicalize_perm qs)

/-- Modelled from the spec (§4.2): the physical key-value store a cache
backend holds, mapping cache keys to serialized blobs. -/
abbrev Store := List (CacheKey × SVal)

/-- Lookup of a serialized blob in a store. -/
def storeGet : Store → CacheKey → Option SVal
  | [], _ => none
  | (k', v) :: rest, k => if k' = k then some v else storeGet rest k

/-- Modelled from the spec (§4.2, §9 "polymorphic backend selection"):
the cache backend as a tagged variant behind one capability interface.
The disk variant carries its root and seed (physical location); the
in-memory variant only its store. -/
inductive Backend where
  | disk (root : String) (seed : Nat) (store : Store)
  | inMemory (store : Store)

/-- The store held by a backend, uniformly across variants. -/
def Backend.store : Backend → Store
  | .disk _ _ s => s
  | .inMemory s => s

/-- Replace the store of a backend, keeping its physical location. -/
def Backend.withStore : Backend → Store → Backend
  | .disk root seed _, s => .disk root seed s
  | .inMemory _, s => .inMemory s

/-- Modelled from the spec (§4.2): `get(key) -> Response | Miss`,
deserializing the stored blob. -/
def Backend.get (b : Backend) (k : CacheKey) : Option Response :=
  (storeGet b.store k).bind deserializeResponse

/-- Modelled from the spec (§4.2): `put(key, response)`, storing the
serialized response. -/
def Backend.put (b : Backend) (k : CacheKey) (r : Response) : Backend :=
  b.withStore ((k, serializeResponse r) :: b.store)

/-- Modelled from the spec (§6 on-disk layouts): the file system as a
map from a physical cache location (root directory, seed subdirectory)
to the store living there. -/
abbrev DiskLoc := String × Nat

/-- The file system state shared by all disk-backed caches. -/
abbrev FS := List (DiskLoc × Store)

/-- The store at a given location; an absent directory reads as the
empty store. -/
def fsStore : FS → DiskLoc → Store
  | [], _ => []
  | (l, s) :: rest, loc => if l = loc then s else fsStore rest loc

/-- Write one serialized entry under a location, creating the directory
implicitly on first use (spec §4.2). -/
def fsPut (fs : FS) (loc : DiskLoc) (k : CacheKey) (v : SVal) : FS :=
  (loc, (k, v) :: fsStore fs loc) :: fs

/-- Read a response from a location, deserializing the stored blob. -/
def fsGet (fs : FS) (loc : DiskLoc) (k : CacheKey) : Option Response :=
  (storeGet (fsStore fs loc) k).bind deserializeResponse

/-- Write a response under a location, serializing it. -/
def fsPutResp (fs : FS) (loc : DiskLoc) (k : CacheKey) (r : Response) : FS :=
  fsPut fs loc k (serializeResponse r)

theorem fsStore_fsPut (fs : FS) (loc loc' : DiskLoc) (k : CacheKey) (v : SVal) :
    fsStore (fsPut fs loc k v) loc' =
      if loc = loc' then (k, v) :: fsStore fs loc else fsStore fs loc' := by
  by_cases h : loc = loc' <;> simp [fsPut, fsStore, h]

theorem fsGet_fsPutResp_same (fs : FS) (loc : DiskLoc) (k : CacheKey) (r : Response) :
    fsGet (fsPutResp fs loc k r) loc k = some r := by
  simp [fsGet, fsPutResp, fsStore_fsPut, storeGet, deserializeResponse_serializeResponse]

theorem fsStore_fsPutResp_other (fs : FS) (loc loc' : DiskLoc) (k : CacheKey)
    (r : Response) (h : loc' ≠ loc) :
    fsStore (fsPutResp fs loc k r) loc' = fsStore fs loc' := by
  have h' : loc ≠ loc' := fun hh => h hh.symm
  simp [fsPutResp, fsStore_fsPut, h']

/-- Modelled from the spec (§3 UsageRecord): per-model accumulator of
call count, token sums, and cost sum. -/
structure UsageRecord where
  count : Nat
  promptTokens : Nat
  completionTokens : Nat
  cost : ℚ
deriving DecidableEq

/-- A ledger's per-model records, keyed by model name. -/
abbrev LedgerMap := List (String × UsageRecord)

/-- Modelled from the spec (§3, §4.4): a ledger is either the absent
"no calls recorded yet" state (`none`, distinct from all-zero
accumulators) or a mapping of per-model records. -/
abbrev Ledger := Option LedgerMap

/-- Accumulate one served response into a ledger map, inserting a fresh
record with count 1 for a model not yet present. -/
def recordOne : LedgerMap → String → Nat → Nat → ℚ → LedgerMap
  | [], m, pt, ct, c => [(m, ⟨1, pt, ct, c⟩)]
  | (m', r) :: rest, m, pt, ct, c =>
    if m' = m then
      (m', ⟨r.count + 1, r.promptTokens + pt, r.completionTokens + ct, r.cost + c⟩) :: rest
    else
      (m', r) :: recordOne rest m pt ct c

/-- Accumulate into a ledger, leaving the absent state. -/
def ledgerRecord (L : Ledger) (m : String) (pt ct : Nat) (c : ℚ) : Ledger :=
  some (recordOne (L.getD []) m pt ct c)

/-- Modelled from the spec (§3, §4.4): the two parallel ledgers,
"actual" (real remote calls only) and "total" (every served response). -/
structure UsageTracker where
  actual : Ledger
  total : Ledger

/-- Modelled from the spec (§4.4): `record(...)` always updates "total"
and updates "actual" additionally only when the response was freshly
fetched. -/
def UsageTracker.record (u : UsageTracker) (m : String) (pt ct : Nat) (c : ℚ)
    (isActual : Bool) : UsageTracker :=
  { actual := if isActual then ledgerRecord u.actual m pt ct c else u.actual,
    total := ledgerRecord u.total m pt ct c }

/-- Per-model record lookup in a ledger map. -/
def findRec : LedgerMap → String → Option UsageRecord
  | [], _ => none
  | (m', r) :: rest, m => if m' = m then some r else findRec rest m

/-- Call count recorded for a model (0 when absent). -/
def countOf (L : Ledger) (m : String) : Nat :=
  ((findRec (L.getD []) m).map UsageRecord.count).getD 0

/-- Cost recorded for a model (0 when absent). -/
def costOf (L : Ledger) (m : String) : ℚ :=
  ((findRec (L.getD []) m).map UsageRecord.cost).getD 0

/-- Modelled from the spec (§4.4): the `total_cost` field of a summary,
the sum of all per-model costs. -/
def totalCost (L : Ledger) : ℚ :=
  ((L.getD []).map (fun p => p.2.cost)).sum

/-- Modelled from the spec (§4.3, §6): the fixed historical constant
root directory of the legacy cache. -/
def LEGACY_CACHE_DIR : String := ".cache"

/-- Modelled from the spec (§3 CacheSeed): the fixed default seed
constant distinguishing the legacy namespace. -/
def LEGACY_DEFAULT_CACHE_SEED : Nat := 41

/-- Modelled from the spec (§7 RemoteCallError): a provider error, not
interpreted beyond "failed". -/
structure RemoteError where
  message : String
deriving DecidableEq

/-- Modelled from the spec (§6): the payload a successful remote call
returns, before client-side cost annotation. -/
structure RemoteResult where
  model : String
  content : String
  toolCalls : List ToolCall
  usage : Usage

/-- Modelled from the spec (§6): the remote call collaborator. -/
abbrev RemoteOracle := Request → Except RemoteError RemoteResult

/-- Modelled from the spec (§6): the price-table collaborator
`price_for(model, prompt_tokens, completion_tokens) -> cost`. -/
abbrev PriceTable := String → Nat → Nat → ℚ

/-- Build the Response returned to the caller from a remote result,
annotating the derived cost (spec §3 Response). -/
def mkResponse (price : PriceTable) (r : RemoteResult) : Response :=
  ⟨r.model, r.content, r.toolCalls, r.usage,
   price r.model r.usage.promptTokens r.usage.completionTokens⟩

/-- Modelled from the spec (§6 public entry points): the orchestrator's
construction-time configuration: optional client-level explicit cache
location and optional default seed (`none` = caching disabled). -/
structure WrapperConfig where
  clientCache : Option DiskLoc
  clientSeed : Option Nat
deriving DecidableEq

/-- The orchestrator's state: its configuration, the shared file
system holding all disk stores, and the dual usage ledgers. -/
structure WrapperState where
  cfg : WrapperConfig
  fs : FS
  usage : UsageTracker

/-- Modelled from the spec (§4.5 step 1): resolve the effective cache
scope — explicit per-call cache > explicit client-level cache >
(seed not disabled) legacy-resolved backend > no caching.  A per-call
seed (`some (some s)` = seed s, `some none` = explicitly disabled)
overrides the client default seed. -/
def effectiveScope (cfg : WrapperConfig) (callCache : Option DiskLoc)
    (callSeed : Option (Option Nat)) : Option DiskLoc :=
  match callCache with
  | some loc => some loc
  | none =>
    match cfg.clientCache with
    | some loc => some loc
    | none =>
      match callSeed.getD cfg.clientSeed with
      | some s => some (LEGACY_CACHE_DIR, s)
      | none => none

/-- Modelled from the spec (§4.5): one logical `create` call.  Resolve
the scope, derive the key, look up; on hit return the stored response
and record with is_actual false; on miss invoke the remote collaborator
and, on success, store and record with is_actual true; on remote
failure propagate the error with no cache write and no ledger update. -/
def create (price : PriceTable) (remote : RemoteOracle) (st : WrapperState)
    (req : Request) (callCache : Option DiskLoc) (callSeed : Option (Option Nat)) :
    Except RemoteError Response × WrapperState :=
  match effectiveScope st.cfg callCache callSeed with
  | none =>
    match remote req with
    | .error e => (.error e, st)
    | .ok r =>
      (.ok (mkResponse price r),
       { st with usage := st.usage.record (mkResponse price r).model
                            (mkResponse price r).usage.promptTokens
                            (mkResponse price r).usage.completionTokens
                            (mkResponse price r).cost true })
  | some loc =>
    match fsGet st.fs loc (derive req loc.2) with
    | some resp =>
      (.ok resp,
       { st with usage := st.usage.record resp.model resp.usage.promptTokens
                            resp.usage.completionTokens resp.cost false })
    | none =>
      match remote req with
      | .error e => (.error e, st)
      | .ok r =>
        (.ok (mkResponse price r),
         { st with
            fs := fsPutResp st.fs loc (derive req loc.2) (mkResponse price r),
            usage := st.usage.record (mkResponse price r).model
                       (mkResponse price r).usage.promptTokens
                       (mkResponse price r).usage.completionTokens
                       (mkResponse price r).cost true })

/-- Modelled from the spec (§4.4 clear, §8 clear semantics) and the
test's `clear_usage_summary`: reset both ledgers to the absent
"no records" state. -/
def clearUsageSummary (st : WrapperState) : WrapperState :=
  { st with usage := ⟨none, none⟩ }

/-- An operation a caller can perform on one orchestrator. -/
inductive Op where
  | createOp (req : Request) (callCache : Option DiskLoc) (callSeed : Option (Option Nat))
  | clearOp

/-- Apply one operation to the orchestrator state (a failed create
leaves the state unchanged). -/
def applyOp (price : PriceTable) (remote : RemoteOracle) (st : WrapperState) :
    Op → WrapperState
  | .createOp req cc cs => (create price remote st req cc cs).2
  | .clearOp => clearUsageSummary st

/-- Run a sequence of operations on one orchestrator. -/
def runOps (price : PriceTable) (remote : RemoteOracle) (ops : List Op)
    (st : WrapperState) : WrapperState :=
  ops.foldl (applyOp price remote) st

/-- The orchestrator's state as constructed (spec §6 public entry
points): empty file system, both ledgers absent. -/
def initState (cfg : WrapperConfig) : WrapperState :=
  ⟨cfg, [], ⟨none, none⟩⟩

theorem fsGet_fsPutResp (fs : FS) (loc loc' : DiskLoc) (k k' : CacheKey) (r : Response) :
    fsGet (fsPutResp fs loc k r) loc' k' =
      if loc = loc' ∧ k = k' then some r else fsGet fs loc' k' := by
  by_cases hl : loc = loc'
  · subst hl
    by_cases hk : k = k'
    · subst hk
      simp [fsGet_fsPutResp_same]
    · simp [fsGet, fsPutResp, fsStore_fsPut, storeGet, hk]
  · have h' : loc' ≠ loc := fun hh => hl hh.symm
    simp [fsGet, fsStore_fsPutResp_other fs loc loc' k r h', hl]

theorem countOf_recordOne (l : LedgerMap) (m m' : String) (pt ct : Nat) (c : ℚ) :
    ((findRec (recordOne l m pt ct c) m').map UsageRecord.count).getD 0 =
      ((findRec l m').map UsageRecord.count).getD 0 + (if m = m' then 1 else 0) := by
  induction l with
  | nil =>
    by_cases h : m = m' <;> simp [recordOne, findRec, h]
  | cons p rest ih =>
    obtain ⟨m'', r⟩ := p
    by_cases h1 : m'' = m
    · subst h1
      by_cases h2 : m'' = m' <;> simp [recordOne, findRec, h2]
    · by_cases h2 : m'' = m'
      · subst h2
        have h3 : ¬ m = m'' := fun hh => h1 hh.symm
        simp [recordOne, findRec, h1, h3]
      · simp [recordOne, findRec, h1, h2, ih]

theorem costOf_recordOne (l : LedgerMap) (m m' : String) (pt ct : Nat) (c : ℚ) :
    ((findRec (recordOne l m pt ct c) m').map UsageRecord.cost).getD 0 =
      ((findRec l m').map UsageRecord.cost).getD 0 + (if m = m' then c else 0) := by
  induction l with
  | nil =>
    by_cases h : m = m' <;> simp [recordOne, findRec, h]
  | cons p rest ih =>
    obtain ⟨m'', r⟩ := p
    by_cases h1 : m'' = m
    · subst h1
      by_cases h2 : m'' = m' <;> simp [recordOne, findRec, h2]
    · by_cases h2 : m'' = m'
      · subst h2
        have h3 : ¬ m = m'' := fun hh => h1 hh.symm
        simp [recordOne, findRec, h1, h3]
      · simp [recordOne, findRec, h1, h2, ih]

theorem countOf_ledgerRecord (L : Ledger) (m m' : String) (pt ct : Nat) (c : ℚ) :
    countOf (ledgerRecord L m pt ct c) m' =
      countOf L m' + (if m = m' then 1 else 0) := by
  simp [countOf, ledgerRecord, countOf_recordOne]

theorem costOf_ledgerRecord (L : Ledger) (m m' : String) (pt ct : Nat) (c : ℚ) :
    costOf (ledgerRecord L m pt ct c) m' =
      costOf L m' + (if m = m' then c else 0) := by
  simp [costOf, ledgerRecord, costOf_recordOne]

/-- Modelled from the spec (§3, §8): the dual-ledger invariant — for
every model, total count and cost dominate actual count and cost. -/
def LedgerInv (u : UsageTracker) : Prop :=
  ∀ m, countOf u.actual m ≤ countOf u.total m ∧ costOf u.actual m ≤ costOf u.total m

/-- Every response stored in the file system carries a nonnegative
cost (true of every response the orchestrator ever stores, given a
nonnegative price table). -/
def FSNonneg (fs : FS) : Prop :=
  ∀ loc k r, fsGet fs loc k = some r → 0 ≤ r.cost

theorem ledgerInv_record_actual {u : UsageTracker} (h : LedgerInv u)
    (m : String) (pt ct : Nat) (c : ℚ) :
    LedgerInv (u.record m pt ct c true) := by
  intro m'
  simp only [UsageTracker.record, if_true, countOf_ledgerRecord, costOf_ledgerRecord]
  exact ⟨Nat.add_le_add_right (h m').1 _, add_le_add_right (h m').2 _⟩

theorem ledgerInv_record_hit {u : UsageTracker} (h : LedgerInv u)
    (m : String) (pt ct : Nat) (c : ℚ) (hc : 0 ≤ c) :
    LedgerInv (u.record m pt ct c false) := by
  intro m'
  simp only [UsageTracker.record, if_false, countOf_ledgerRecord, costOf_ledgerRecord]
  constructor
  · exact le_trans (h m').1 (Nat.le_add_right _ _)
  · refine le_trans (h m').2 (le_add_of_nonneg_right ?_)
    by_cases hm : m = m' <;> simp [hm, hc]

/-- The compound state invariant of the orchestrator. -/
def GoodState (st : WrapperState) : Prop :=
  LedgerInv st.usage ∧ FSNonneg st.fs

theorem goodState_initState (cfg : WrapperConfig) : GoodState (initState cfg) := by
  constructor
  · intro m
    simp [countOf, costOf, initState, findRec]
  · intro loc k r h
    simp [fsGet, fsStore, initState, storeGet] at h

theorem goodState_create (price : PriceTable) (remote : RemoteOracle)
    {st : WrapperState} (hprice : ∀ m pt ct, 0 ≤ price m pt ct)
    (h : GoodState st) (req : Request) (cc : Option DiskLoc)
    (cs : Option (Option Nat)) :
    GoodState (create price remote st req cc cs).2 := by
  obtain ⟨hinv, hfs⟩ := h
  unfold create
  split
  · split
    · exact ⟨hinv, hfs⟩
    · exact ⟨ledgerInv_record_actual hinv _ _ _ _, hfs⟩
  · next loc =>
    split
    · next resp hresp =>
      exact ⟨ledgerInv_record_hit hinv _ _ _ _ (hfs _ _ _ hresp), hfs⟩
    · split
      · exact ⟨hinv, hfs⟩
      · next r hr =>
        refine ⟨ledgerInv_record_actual hinv _ _ _ _, ?_⟩
        intro loc' k' r' hget
        simp only [fsGet_fsPutResp] at hget
        split at hget
        · cases hget
          exact hprice _ _ _
        · exact hfs _ _ _ hget

theorem goodState_applyOp (price : PriceTable) (remote : RemoteOracle)
    {st : WrapperState} (hprice : ∀ m pt ct, 0 ≤ price m pt ct)
    (h : GoodState st) (op : Op) :
    GoodState (applyOp price remote st op) := by
  cases op with
  | createOp req cc cs => exact goodState_create price remote hprice h req cc cs
  | clearOp =>
    refine ⟨?_, h.2⟩
    intro m
    simp [clearUsageSummary, countOf, costOf, findRec]

theorem goodState_runOps (price : PriceTable) (remote : RemoteOracle)
    {st : WrapperState} (hprice : ∀ m pt ct, 0 ≤ price m pt ct)
    (h : GoodState st) (ops : List Op) :
    GoodState (runOps price remote ops st) := by
  induction ops generalizing st with
  | nil => exact h
  | cons op ops ih =>
    exact ih (goodState_applyOp price remote hprice h op)

/-- C2: after any sequence of operations on one orchestrator (create
calls with arbitrary per-call cache and seed arguments, and ledger
clears) starting from the constructed state, for every model m the
"total" ledger dominates the "actual" ledger field-wise:
total count ≥ actual count and total cost ≥ actual cost; the invariant
is preserved by record-on-hit, record-on-miss and clear. -/
theorem c2_ledger_invariant (price : PriceTable) (remote : RemoteOracle)
    (hprice : ∀ m pt ct, 0 ≤ price m pt ct) (ops : List Op) (cfg : WrapperConfig) :
    LedgerInv (runOps price remote ops (initState cfg)).usage :=
  (goodState_runOps price remote hprice (goodState_initState cfg) ops).1

/-- Witness for C2: a concrete nonnegative price table, oracle,
operation sequence and configuration. -/
theorem c2_ledger_invariant_witness :
    LedgerInv (runOps (fun _ _ _ => 1)
        (fun _ => .ok ⟨"gpt", "4", [], ⟨2, 1⟩⟩)
        [Op.createOp ⟨[("prompt", "1+3=")]⟩ none (some (some 42)),
         Op.createOp ⟨[("prompt", "1+3=")]⟩ none (some (some 42)),
         Op.clearOp]
        (initState ⟨none, some LEGACY_DEFAULT_CACHE_SEED⟩)).usage :=
  c2_ledger_invariant _ _ (fun _ _ _ => by norm_num) _ _

/-- C1: with caching enabled by seed s (no explicit caches), a fresh
"total" ledger, and a clean miss state, two successive create calls
with identical request parameters and the same seed return equal
Responses; the second call is served from the cache: the "actual"
ledger is unchanged by the second call while the "total" ledger's call
count for the model is incremented, and after the two calls the total
cost equals 2 times the first call's cost. -/
theorem c1_cache_hit_correctness (price : PriceTable) (remote : RemoteOracle)
    (st : WrapperState) (req : Request) (s : Nat) (r : RemoteResult)
    (hclient : st.cfg.clientCache = none)
    (htotal : st.usage.total = none)
    (hmiss : fsGet st.fs (LEGACY_CACHE_DIR, s) (derive req s) = none)
    (hok : remote req = .ok r) :
    (create price remote st req none (some (some s))).1 = .ok (mkResponse price r) ∧
    (create price remote (create price remote st req none (some (some s))).2
        req none (some (some s))).1 = .ok (mkResponse price r) ∧
    (create price remote (create price remote st req none (some (some s))).2
        req none (some (some s))).2.usage.actual =
      (create price remote st req none (some (some s))).2.usage.actual ∧
    countOf (create price remote (create price remote st req none (some (some s))).2
        req none (some (some s))).2.usage.total (mkResponse price r).model =
      countOf (create price remote st req none (some (some s))).2.usage.total
        (mkResponse price r).model + 1 ∧
    totalCost (create price remote (create price remote st req none (some (some s))).2
        req none (some (some s))).2.usage.total = 2 * (mkResponse price r).cost := by
  have hscope : effectiveScope st.cfg none (some (some s)) = some (LEGACY_CACHE_DIR, s) := by
    simp [effectiveScope, hclient]
  refine ⟨?_, ?_, ?_, ?_, ?_⟩
  · simp only [create, hscope, hmiss, hok]
  · simp only [create, hscope, hmiss, hok, fsGet_fsPutResp_same]
  · simp only [create, hscope, hmiss, hok, fsGet_fsPutResp_same, UsageTracker.record]
    simp
  · simp only [create, hscope, hmiss, hok, fsGet_fsPutResp_same, UsageTracker.record,
      countOf_ledgerRecord]
    simp
  · simp only [create, hscope, hmiss, hok, fsGet_fsPutResp_same, UsageTracker.record,
      ledgerRecord, htotal]
    simp [recordOne, totalCost]
    ring

theorem create_hit (price : PriceTable) (remote : RemoteOracle) (st : WrapperState)
    (req : Request) (cc : Option DiskLoc) (cs : Option (Option Nat)) (loc : DiskLoc)
    (resp : Response) (hscope : effectiveScope st.cfg cc cs = some loc)
    (hhit : fsGet st.fs loc (derive req loc.2) = some resp) :
    create price remote st req cc cs =
      (.ok resp,
       { st with usage := st.usage.record resp.model resp.usage.promptTokens
                            resp.usage.completionTokens resp.cost false }) := by
  simp only [create, hscope, hhit]

theorem create_miss_ok (price : PriceTable) (remote : RemoteOracle) (st : WrapperState)
    (req : Request) (cc : Option DiskLoc) (cs : Option (Option Nat)) (loc : DiskLoc)
    (r : RemoteResult) (hscope : effectiveScope st.cfg cc cs = some loc)
    (hmiss : fsGet st.fs loc (derive req loc.2) = none)
    (hok : remote req = .ok r) :
    create price remote st req cc cs =
      (.ok (mkResponse price r),
       { st with
          fs := fsPutResp st.fs loc (derive req loc.2) (mkResponse price r),
          usage := st.usage.record (mkResponse price r).model
                     (mkResponse price r).usage.promptTokens
                     (mkResponse price r).usage.completionTokens
                     (mkResponse price r).cost true }) := by
  simp only [create, hscope, hmiss, hok]

theorem create_nocache_ok (price : PriceTable) (remote : RemoteOracle) (st : WrapperState)
    (req : Request) (cc : Option DiskLoc) (cs : Option (Option Nat))
    (r : RemoteResult) (hscope : effectiveScope st.cfg cc cs = none)
    (hok : remote req = .ok r) :
    create price remote st req cc cs =
      (.ok (mkResponse price r),
       { st with usage := st.usage.record (mkResponse price r).model
                            (mkResponse price r).usage.promptTokens
                            (mkResponse price r).usage.completionTokens
                            (mkResponse price r).cost true }) := by
  simp only [create, hscope, hok]

theorem create_cfg (price : PriceTable) (remote : RemoteOracle) (st : WrapperState)
    (req : Request) (cc : Option DiskLoc) (cs : Option (Option Nat)) :
    ((create price remote st req cc cs).2).cfg = st.cfg := by
  unfold create
  split
  · split <;> rfl
  · split
    · rfl
    · split <;> rfl

/-- C3: immediately after clearing the usage summaries, the "actual"
summary is the absent state; a subsequent call served as a cache hit
leaves it absent; a subsequent call that is a cache miss makes it
present with a call count of 1 for the served model. -/
theorem c3_clear_semantics (price : PriceTable) (remote : RemoteOracle)
    (st : WrapperState) (req1 req2 : Request) (cc1 cc2 : Option DiskLoc)
    (cs1 cs2 : Option (Option Nat)) (loc1 loc2 : DiskLoc)
    (resp1 : Response) (r2 : RemoteResult)
    (hscope1 : effectiveScope st.cfg cc1 cs1 = some loc1)
    (hhit : fsGet st.fs loc1 (derive req1 loc1.2) = some resp1)
    (hscope2 : effectiveScope st.cfg cc2 cs2 = some loc2)
    (hmiss : fsGet st.fs loc2 (derive req2 loc2.2) = none)
    (hok : remote req2 = .ok r2) :
    (clearUsageSummary st).usage.actual = none ∧
    (create price remote (clearUsageSummary st) req1 cc1 cs1).2.usage.actual = none ∧
    (create price remote
        (create price remote (clearUsageSummary st) req1 cc1 cs1).2
        req2 cc2 cs2).2.usage.actual ≠ none ∧
    countOf (create price remote
        (create price remote (clearUsageSummary st) req1 cc1 cs1).2
        req2 cc2 cs2).2.usage.actual (mkResponse price r2).model = 1 := by
  have h1 := create_hit price remote (clearUsageSummary st) req1 cc1 cs1 loc1 resp1
    hscope1 hhit
  set st1 := (create price remote (clearUsageSummary st) req1 cc1 cs1).2 with hst1
  have hcfg1 : st1.cfg = st.cfg := by
    rw [hst1, h1]
    simp [clearUsageSummary]
  have hfs1 : st1.fs = st.fs := by
    rw [hst1, h1]
    simp [clearUsageSummary]
  have hact1 : st1.usage.actual = none := by
    rw [hst1, h1]
    simp [UsageTracker.record, clearUsageSummary]
  have hscope2' : effectiveScope st1.cfg cc2 cs2 = some loc2 := by
    rw [hcfg1]
    exact hscope2
  have hmiss' : fsGet st1.fs loc2 (derive req2 loc2.2) = none := by
    rw [hfs1]
    exact hmiss
  have h2 := create_miss_ok price remote st1 req2 cc2 cs2 loc2 r2 hscope2' hmiss' hok
  refine ⟨rfl, hact1, ?_, ?_⟩
  · rw [h2]
    simp [UsageTracker.record, ledgerRecord]
  · rw [h2]
    simp [UsageTracker.record, ledgerRecord, hact1, countOf, recordOne, findRec]

/-- C4: the cache-key derivation is pure and deterministic (repeated
evaluation agrees), is unaffected by non-semantic parameter ordering
(any reordering of the parameters yields the same key), and yields a
different key whenever the semantic parameter content or the seed
changes (equal keys force equal seed and equal content up to
reordering). -/
theorem c4_derive_deterministic (R R' : Request) (S S' : Nat)
    (hnd : (R.params.map Prod.fst).Nodup) :
    derive R S = derive R S ∧
    (List.Perm R.params R'.params → derive R S = derive R' S) ∧
    (derive R S = derive R' S' → S = S' ∧ List.Perm R.params R'.params) := by
  refine ⟨rfl, ?_, ?_⟩
  · intro hp
    unfold derive
    rw [canonicalize_eq_of_perm hp hnd]
  · intro h
    simp only [derive, Prod.mk.injEq] at h
    exact ⟨h.2, perm_of_canonicalize_eq h.1⟩

/-- Witness for C4: two concrete requests whose parameter lists are
reorderings of each other, with duplicate-free keys, at seed 42. -/
theorem c4_derive_deterministic_witness :
    derive ⟨[("model", "gpt"), ("prompt", "1+3=")]⟩ 42 =
      derive ⟨[("model", "gpt"), ("prompt", "1+3=")]⟩ 42 ∧
    (List.Perm [("model", "gpt"), ("prompt", "1+3=")]
        [("prompt", "1+3="), ("model", "gpt")] →
      derive ⟨[("model", "gpt"), ("prompt", "1+3=")]⟩ 42 =
        derive ⟨[("prompt", "1+3="), ("model", "gpt")]⟩ 42) ∧
    (derive ⟨[("model", "gpt"), ("prompt", "1+3=")]⟩ 42 =
        derive ⟨[("prompt", "1+3="), ("model", "gpt")]⟩ 42 →
      (42 : Nat) = 42 ∧
      List.Perm [("model", "gpt"), ("prompt", "1+3=")]
        [("prompt", "1+3="), ("model", "gpt")]) :=
  c4_derive_deterministic ⟨[("model", "gpt"), ("prompt", "1+3=")]⟩
    ⟨[("prompt", "1+3="), ("model", "gpt")]⟩ 42 42 (by decide)

/-- C5: for every cache backend variant (any root, seed and held
store), every key and every response, a `put` followed by a `get` with
the same key returns the stored response unchanged — no serialization
loss, nested structures included. -/
theorem c5_roundtrip (b : Backend) (k : CacheKey) (r : Response) :
    (b.put k r).get k = some r := by
  cases b <;>
    simp [Backend.put, Backend.get, Backend.withStore, Backend.store, storeGet,
      deserializeResponse_serializeResponse]

theorem create_fs_frame (price : PriceTable) (remote : RemoteOracle) (st : WrapperState)
    (req : Request) (cc : Option DiskLoc) (cs : Option (Option Nat)) (loc' : DiskLoc)
    (h : ∀ l, effectiveScope st.cfg cc cs = some l → loc' ≠ l) :
    fsStore ((create price remote st req cc cs).2).fs loc' = fsStore st.fs loc' := by
  unfold create
  split
  · split <;> rfl
  · next loc hscope =>
    split
    · rfl
    · split
      · rfl
      · exact fsStore_fsPutResp_other st.fs loc loc' _ _ (h loc hscope)

/-- C6: with an explicit per-call cache rooted away from the legacy
constant directory, a create call leaves every legacy-namespace entry
unchanged for every seed (nothing is written there, and every legacy
read yields what it yielded before); conversely, a create call going
through the legacy path resolver leaves every entry under the explicit
root unchanged for every seed — the two namespaces never cross. -/
theorem c6_namespace_isolation (price : PriceTable) (remote : RemoteOracle)
    (st : WrapperState) (req req' : Request) (root : String) (s s' : Nat)
    (cs : Option (Option Nat))
    (hroot : root ≠ LEGACY_CACHE_DIR)
    (hclient : st.cfg.clientCache = none) :
    (∀ s0 k, fsGet ((create price remote st req (some (root, s)) cs).2).fs
        (LEGACY_CACHE_DIR, s0) k = fsGet st.fs (LEGACY_CACHE_DIR, s0) k) ∧
    (∀ s0 k, fsGet ((create price remote st req' none (some (some s'))).2).fs
        (root, s0) k = fsGet st.fs (root, s0) k) := by
  constructor
  · intro s0 k
    have hl : ∀ l, effectiveScope st.cfg (some (root, s)) cs = some l →
        (LEGACY_CACHE_DIR, s0) ≠ l := by
      intro l hle heq
      have hle' : some (root, s) = some l := hle
      cases hle'
      exact hroot (congrArg Prod.fst heq).symm
    simp only [fsGet, create_fs_frame price remote st req (some (root, s)) cs
      (LEGACY_CACHE_DIR, s0) hl]
  · intro s0 k
    have hscope : effectiveScope st.cfg none (some (some s')) =
        some (LEGACY_CACHE_DIR, s') := by
      simp [effectiveScope, hclient]
    have hl : ∀ l, effectiveScope st.cfg none (some (some s')) = some l →
        (root, s0) ≠ l := by
      intro l hle heq
      rw [hscope] at hle
      cases hle
      exact hroot (congrArg Prod.fst heq)
    simp only [fsGet, create_fs_frame price remote st req' none (some (some s'))
      (root, s0) hl]

/-- C7: with the cache seed disabled (seed None) and no explicit cache
at either level, create bypasses the cache entirely: two identical
calls both invoke the remote collaborator and return its (costed)
response, the file system is untouched, and each call increments both
the "actual" and the "total" ledger as a real remote call. -/
theorem c7_disabled_seed_bypass (price : PriceTable) (remote : RemoteOracle)
    (st : WrapperState) (req : Request) (r : RemoteResult)
    (hclient : st.cfg.clientCache = none)
    (hseed : st.cfg.clientSeed = none)
    (hok : remote req = .ok r) :
    (create price remote st req none none).1 = .ok (mkResponse price r) ∧
    (create price remote (create price remote st req none none).2 req none none).1 =
      .ok (mkResponse price r) ∧
    (create price remote (create price remote st req none none).2 req none none).2.fs =
      st.fs ∧
    countOf (create price remote (create price remote st req none none).2
        req none none).2.usage.actual (mkResponse price r).model =
      countOf st.usage.actual (mkResponse price r).model + 2 ∧
    countOf (create price remote (create price remote st req none none).2
        req none none).2.usage.total (mkResponse price r).model =
      countOf st.usage.total (mkResponse price r).model + 2 := by
  have hscope : effectiveScope st.cfg none none = none := by
    simp [effectiveScope, hclient, hseed]
  have h1 := create_nocache_ok price remote st req none none r hscope hok
  set st1 := (create price remote st req none none).2 with hst1
  have hcfg1 : st1.cfg = st.cfg := by
    rw [hst1, h1]
  have hfs1 : st1.fs = st.fs := by
    rw [hst1, h1]
  have hscope1 : effectiveScope st1.cfg none none = none := by
    rw [hcfg1]
    exact hscope
  have h2 := create_nocache_ok price remote st1 req none none r hscope1 hok
  have husage1 : st1.usage = st.usage.record (mkResponse price r).model
      (mkResponse price r).usage.promptTokens
      (mkResponse price r).usage.completionTokens (mkResponse price r).cost true := by
    rw [hst1, h1]
  refine ⟨by rw [h1], by rw [h2], by rw [h2]; exact hfs1, ?_, ?_⟩
  · rw [h2]
    simp only [husage1, UsageTracker.record, if_true, countOf_ledgerRecord, if_pos rfl]
  · rw [h2]
    simp only [husage1, UsageTracker.record, if_true, countOf_ledgerRecord, if_pos rfl]

/-- C8: when the remote collaborator fails on a call that reaches it
(the scope is cache-disabled, or the lookup is a miss), the error is
propagated to the caller unmodified and the whole orchestrator state is
unchanged — no cache write, no ledger update — so an immediately
retried identical call starts from the same clean miss state. -/
theorem c8_remote_error_atomic (price : PriceTable) (remote : RemoteOracle)
    (st : WrapperState) (req : Request) (cc : Option DiskLoc) (cs : Option (Option Nat))
    (e : RemoteError) (herr : remote req = .error e)
    (hnohit : ∀ loc, effectiveScope st.cfg cc cs = some loc →
        fsGet st.fs loc (derive req loc.2) = none) :
    (create price remote st req cc cs).1 = .error e ∧
    (create price remote st req cc cs).2 = st := by
  have key : create price remote st req cc cs = (.error e, st) := by
    unfold create
    split
    · simp only [herr]
    · next loc hscope =>
      simp only [hnohit loc hscope, herr]
  exact ⟨by rw [key], by rw [key]⟩

/-- C9: an explicit cache supplied to an individual create call takes
precedence over the orchestrator's client-level default for that call
(the effective scope is the per-call cache), and the call does not
mutate the orchestrator's configuration: a subsequent call without
per-call overrides resolves to the same effective scope the client was
constructed with. -/
theorem c9_percall_override_frame (price : PriceTable) (remote : RemoteOracle)
    (st : WrapperState) (req : Request) (cc : Option DiskLoc)
    (cs : Option (Option Nat)) :
    (∀ loc, effectiveScope st.cfg (some loc) cs = some loc) ∧
    (st.cfg.clientCache = none →
      ∀ s, effectiveScope st.cfg none (some (some s)) = some (LEGACY_CACHE_DIR, s)) ∧
    ((create price remote st req cc cs).2).cfg = st.cfg ∧
    effectiveScope ((create price remote st req cc cs).2).cfg none none =
      effectiveScope st.cfg none none := by
  refine ⟨fun loc => rfl, ?_, create_cfg price remote st req cc cs, ?_⟩
  · intro h s
    simp [effectiveScope, h]
  · rw [create_cfg]

/-- The input/output stream variants named in `autogen/io/__init__.py`
(`IOConsole`, `IOWebsockets`); only their identity matters here. -/
inductive StreamKind where
  | console
  | websockets
deriving DecidableEq

/-- Modelled from the spec: the default-stream state of the `IOStream`
base class (process-global default and current context default); the
`autogen/io/base.py` module holding `IOStream` is missing from the
source tree, only `autogen/io/__init__.py` is present. -/
structure IOStreamDefaults where
  globalDefault : Option StreamKind
  contextDefault : Option StreamKind
deriving DecidableEq

/-- Modelled from the spec: `IOStream.set_global_default`, setting the
process-global default stream. -/
def set_global_default (s : StreamKind) (st : IOStreamDefaults) : IOStreamDefaults :=
  { st with globalDefault := some s }

/-- Modelled from the spec: `IOStream.set_default`, setting the current
default stream. -/
def set_default (s : StreamKind) (st : IOStreamDefaults) : IOStreamDefaults :=
  { st with contextDefault := some s }

/-- Modelled from the spec: `IOStream.get_default`, the current default
stream, falling back to the process-global default when no explicit
override is in effect. -/
def get_default (st : IOStreamDefaults) : Option StreamKind :=
  match st.contextDefault with
  | some s => some s
  | none => st.globalDefault

/-- Embedded from `src/autogen/io/__init__.py` lines 11-13: importing
`autogen.io` runs `IOStream.set_global_default(IOConsole())` and then
`IOStream.set_default(IOConsole())`. -/
def ioPackageLoad (st : IOStreamDefaults) : IOStreamDefaults :=
  set_default StreamKind.console (set_global_default StreamKind.console st)

/-- C10: after importing the `autogen.io` package, both the
process-global default stream and the current default stream are the
console, so in the absence of any explicit override the default
input/output stream obtained from `IOStream` is the console. -/
theorem c10_io_import_console_default (st : IOStreamDefaults) :
    (ioPackageLoad st).globalDefault = some StreamKind.console ∧
    (ioPackageLoad st).contextDefault = some StreamKind.console ∧
    get_default (ioPackageLoad st) = some StreamKind.console :=
  ⟨rfl, rfl, rfl⟩

/-- A concrete unit price table used in witnesses. -/
def unitPrice : PriceTable := fun _ _ _ => 1

/-- A concrete successful remote collaborator used in witnesses. -/
def okOracle : RemoteOracle := fun _ => .ok ⟨"gpt", "4", [], ⟨2, 1⟩⟩

/-- A concrete failing remote collaborator used in witnesses. -/
def errOracle : RemoteOracle := fun _ => .error ⟨"rate limited"⟩

/-- A concrete request used in witnesses. -/
def reqA : Request := ⟨[("prompt", "1+3=")]⟩

/-- A concrete stored response used in witnesses. -/
def respA : Response := ⟨"gpt", "4", [], ⟨2, 1⟩, 1⟩

/-- Witness for C1: scenario seed 42, prompt "1+3=", from a freshly
constructed client — after the miss call and the hit call, the total
cost is twice the first call's cost. -/
theorem c1_cache_hit_correctness_witness :
    totalCost (create unitPrice okOracle
        (create unitPrice okOracle (initState ⟨none, some 41⟩) reqA none
          (some (some 42))).2
        reqA none (some (some 42))).2.usage.total =
      2 * (mkResponse unitPrice ⟨"gpt", "4", [], ⟨2, 1⟩⟩).cost :=
  (c1_cache_hit_correctness unitPrice okOracle (initState ⟨none, some 41⟩) reqA 42
    ⟨"gpt", "4", [], ⟨2, 1⟩⟩ rfl rfl rfl rfl).2.2.2.2

/-- Witness for C3: a state holding one cached entry under the legacy
default seed; after a clear, a hit call (same seed) and then a miss
call (seed 42), the "actual" summary holds call count 1. -/
theorem c3_clear_semantics_witness :
    countOf (create unitPrice okOracle
        (create unitPrice okOracle
          (clearUsageSummary
            ⟨⟨none, some 41⟩,
             fsPutResp [] (LEGACY_CACHE_DIR, 41) (derive reqA 41) respA,
             ⟨none, none⟩⟩)
          reqA none none).2
        reqA none (some (some 42))).2.usage.actual
      (mkResponse unitPrice ⟨"gpt", "4", [], ⟨2, 1⟩⟩).model = 1 :=
  (c3_clear_semantics unitPrice okOracle
    ⟨⟨none, some 41⟩, fsPutResp [] (LEGACY_CACHE_DIR, 41) (derive reqA 41) respA,
     ⟨none, none⟩⟩
    reqA reqA none none none (some (some 42)) (LEGACY_CACHE_DIR, 41)
    (LEGACY_CACHE_DIR, 42) respA ⟨"gpt", "4", [], ⟨2, 1⟩⟩
    rfl (fsGet_fsPutResp_same [] (LEGACY_CACHE_DIR, 41) (derive reqA 41) respA)
    rfl (by decide) rfl).2.2.2

/-- Witness for C6: explicit root ".cache_test" with seed 49 against
the legacy namespace, and the legacy path with seed 49 against the
explicit root — reads on the other namespace are unchanged. -/
theorem c6_namespace_isolation_witness :
    fsGet ((create unitPrice okOracle (initState ⟨none, some 41⟩) reqA
        (some (".cache_test", 49)) none).2).fs (LEGACY_CACHE_DIR, 49)
      (derive reqA 49) =
      fsGet (initState ⟨none, some 41⟩).fs (LEGACY_CACHE_DIR, 49) (derive reqA 49) ∧
    fsGet ((create unitPrice okOracle (initState ⟨none, some 41⟩) reqA none
        (some (some 49))).2).fs (".cache_test", 49) (derive reqA 49) =
      fsGet (initState ⟨none, some 41⟩).fs (".cache_test", 49) (derive reqA 49) :=
  ⟨(c6_namespace_isolation unitPrice okOracle (initState ⟨none, some 41⟩) reqA reqA
      ".cache_test" 49 49 none (by decide) rfl).1 49 (derive reqA 49),
   (c6_namespace_isolation unitPrice okOracle (initState ⟨none, some 41⟩) reqA reqA
      ".cache_test" 49 49 none (by decide) rfl).2 49 (derive reqA 49)⟩

/-- Witness for C7: a client constructed with caching disabled; after
two identical calls both ledgers count 2 actual remote calls. -/
theorem c7_disabled_seed_bypass_witness :
    countOf (create unitPrice okOracle
        (create unitPrice okOracle (initState ⟨none, none⟩) reqA none none).2
        reqA none none).2.usage.actual
      (mkResponse unitPrice ⟨"gpt", "4", [], ⟨2, 1⟩⟩).model =
      countOf (initState ⟨none, none⟩).usage.actual
        (mkResponse unitPrice ⟨"gpt", "4", [], ⟨2, 1⟩⟩).model + 2 :=
  (c7_disabled_seed_bypass unitPrice okOracle (initState ⟨none, none⟩) reqA
    ⟨"gpt", "4", [], ⟨2, 1⟩⟩ rfl rfl rfl).2.2.2.1

/-- Witness for C8: a failing remote call on a clean miss state (legacy
seed 41, empty file system) propagates the error and leaves the state
unchanged. -/
theorem c8_remote_error_atomic_witness :
    (create unitPrice errOracle (initState ⟨none, some 41⟩) reqA none none).1 =
      .error ⟨"rate limited"⟩ ∧
    (create unitPrice errOracle (initState ⟨none, some 41⟩) reqA none none).2 =
      initState ⟨none, some 41⟩ :=
  c8_remote_error_atomic unitPrice errOracle (initState ⟨none, some 41⟩) reqA
    none none ⟨"rate limited"⟩ rfl (fun _ _ => rfl)

/-- Witness for C9: a per-call explicit cache and a per-call seed on a
client constructed with the legacy default seed — the call-time scope
is the override's, and the configuration after the call is the
constructed one. -/
theorem c9_percall_override_frame_witness :
    effectiveScope (initState ⟨none, some 41⟩).cfg none (some (some 17)) =
      some (LEGACY_CACHE_DIR, 17) ∧
    ((create unitPrice okOracle (initState ⟨none, some 41⟩) reqA
        (some (".cache_test", 49)) none).2).cfg = (initState ⟨none, some 41⟩).cfg :=
  ⟨(c9_percall_override_frame unitPrice okOracle (initState ⟨none, some 41⟩) reqA
      (some (".cache_test", 49)) none).2.1 rfl 17,
   (c9_percall_override_frame unitPrice okOracle (initState ⟨none, some 41⟩) reqA
      (some (".cache_test", 49)) none).2.2.1⟩

end AG2
